import Mathlib

/-!
Verification of the gh-asset downloader (src/main.rs).

The development shallowly embeds the pure logic of the tool:
asset-id validation and URL construction, destination-path safety
validation (with the filesystem abstracted as an oracle for
existence and canonicalization), and extension inference from an
abstracted HEAD response. Strings are modelled as Lean Strings or
lists of characters; Rust byte lengths are modelled by summing
UTF-8 sizes of characters.
-/

namespace GhAsset

/-- UTF-8 encoded size of one character, as Rust's char::len_utf8 computes it. -/
def charUtf8Size (c : Char) : Nat :=
  if c.val < 0x80 then 1 else if c.val < 0x800 then 2 else if c.val < 0x10000 then 3 else 4

/-- Byte length of a string given as a character list (Rust str::len). -/
def utf8Length (l : List Char) : Nat := (l.map charUtf8Size).sum

/-- Character class of the regex fragment [a-fA-F0-9]. -/
def isHexDigit (c : Char) : Bool :=
  ('0' ≤ c && c ≤ '9') || ('a' ≤ c && c ≤ 'f') || ('A' ≤ c && c ≤ 'F')

/-- Character class of the regex fragment [a-zA-Z0-9]. -/
def isAlnumAscii (c : Char) : Bool :=
  ('0' ≤ c && c ≤ '9') || ('a' ≤ c && c ≤ 'z') || ('A' ≤ c && c ≤ 'Z')

/-- Unicode White_Space test, as Rust's char::is_whitespace decides it. -/
def rustIsWhitespace (c : Char) : Bool :=
  let n := c.toNat
  (0x9 ≤ n && n ≤ 0xD) || n == 0x20 || n == 0x85 || n == 0xA0 || n == 0x1680 ||
  (0x2000 ≤ n && n ≤ 0x200A) || n == 0x2028 || n == 0x2029 || n == 0x202F || n == 0x205F ||
  n == 0x3000

/-- Rust str::trim on a character list. -/
def rustTrim (l : List Char) : List Char :=
  ((l.dropWhile rustIsWhitespace).reverse.dropWhile rustIsWhitespace).reverse

/-- The NUL character. -/
def nulChar : Char := Char.ofNat 0

/-- Rust str::contains("..") : does the character list contain two consecutive dots. -/
def containsDotDot : List Char → Bool
  | '.' :: '.' :: _ => true
  | _ :: rest => containsDotDot rest
  | [] => false

/-- Boolean test that the first list is an initial segment of the second. -/
def leadsWith [BEq α] : List α → List α → Bool
  | [], _ => true
  | _ :: _, [] => false
  | p :: ps, c :: cs => p == c && leadsWith ps cs

/-- Suffix of the haystack after the first occurrence of the pattern
(Rust str::find followed by slicing past the pattern). -/
def afterFirst (pat : List Char) : List Char → Option (List Char)
  | [] => if leadsWith pat [] then some (List.drop pat.length []) else none
  | c :: t =>
    if leadsWith pat (c :: t) then some (List.drop pat.length (c :: t)) else afterFirst pat t

/-- Substring from the last '.' (inclusive), as filename[filename.rfind('.')..];
none when there is no dot. -/
def extFromLastDot : List Char → Option (List Char)
  | [] => none
  | c :: rest =>
    match extFromLastDot rest with
    | some e => some e
    | none => if c = '.' then some (c :: rest) else none

/-- Run of exactly n characters of the class [a-fA-F0-9]; returns the remainder. -/
def hexRun : Nat → List Char → Option (List Char)
  | 0, l => some l
  | _ + 1, [] => none
  | n + 1, c :: l => if isHexDigit c then hexRun n l else none

/-- The literal '-' of the regex; returns the remainder. -/
def expectDash (l : List Char) : Option (List Char) :=
  match l with
  | c :: t => if c = '-' then some t else none
  | [] => none

/-- Matcher compiled from the anchored regex
[a-fA-F0-9]{8}-[a-fA-F0-9]{4}-[a-fA-F0-9]{4}-[a-fA-F0-9]{4}-[a-fA-F0-9]{12}
used by is_valid_asset_id. -/
def uuidChain (l : List Char) : Option (List Char) :=
  ((((((((hexRun 8 l).bind expectDash).bind (hexRun 4)).bind expectDash).bind
      (hexRun 4)).bind expectDash).bind (hexRun 4)).bind expectDash).bind (hexRun 12)

/-- The strict UUID regex accepts exactly when the chain consumes the whole input. -/
def uuidMatch (l : List Char) : Bool := uuidChain l == some []

/-- Matcher for the regex tail [a-zA-Z0-9\-]{18,48}[a-zA-Z0-9] without its
length bounds: nonempty, last character alphanumeric, earlier characters
alphanumeric or hyphen. Length bounds are imposed by looseMatch. -/
def looseBody : List Char → Bool
  | [] => false
  | [c] => isAlnumAscii c
  | c :: t => (isAlnumAscii c || c == '-') && looseBody t

/-- Matcher compiled from the anchored regex
[a-zA-Z0-9][a-zA-Z0-9\-]{18,48}[a-zA-Z0-9] used by is_valid_asset_id:
the structural part plus the total length bounds 20..50 that the
repetition bounds 18..48 impose. -/
def looseMatch (l : List Char) : Bool :=
  decide (20 ≤ l.length) && decide (l.length ≤ 50) &&
  (match l with
   | [] => false
   | c :: t => isAlnumAscii c && looseBody t)

/-- AssetDownloader::is_valid_asset_id. Length is the Rust byte length;
the hyphen membership test renders asset_id.contains('-') and the final
count renders asset_id.matches('-').count() >= 2. -/
def isValidAssetId (l : List Char) : Bool :=
  if utf8Length l < 20 || 50 < utf8Length l then false
  else if !(decide ('-' ∈ l)) then false
  else if uuidMatch l then true
  else looseMatch l && decide (2 ≤ l.count '-')

/-- Error raised by build_asset_url on a rejected identifier. -/
inductive AssetIdError
  | invalidAssetId
deriving DecidableEq

/-- The fixed URL template prefix of build_asset_url. -/
def assetUrlBase : List Char := "https://github.com/user-attachments/assets/".data

/-- AssetDownloader::build_asset_url. -/
def buildAssetUrl (l : List Char) : Except AssetIdError (List Char) :=
  if isValidAssetId l then .ok (assetUrlBase ++ l) else .error .invalidAssetId

/-- Modelled from the spec: the strict UUID shape, 8-4-4-4-12 hexadecimal groups. -/
def UuidShape (l : List Char) : Prop :=
  ∃ g1 g2 g3 g4 g5 : List Char,
    l = g1 ++ '-' :: (g2 ++ '-' :: (g3 ++ '-' :: (g4 ++ '-' :: g5))) ∧
    g1.length = 8 ∧ g2.length = 4 ∧ g3.length = 4 ∧ g4.length = 4 ∧ g5.length = 12 ∧
    (∀ c ∈ g1, isHexDigit c = true) ∧ (∀ c ∈ g2, isHexDigit c = true) ∧
    (∀ c ∈ g3, isHexDigit c = true) ∧ (∀ c ∈ g4, isHexDigit c = true) ∧
    (∀ c ∈ g5, isHexDigit c = true)

/-- Modelled from the spec: the looser shape, starting and ending with an
alphanumeric character, body alphanumeric or hyphen, total length 20 to 50. -/
def LooseShape (l : List Char) : Prop :=
  20 ≤ l.length ∧ l.length ≤ 50 ∧
  (∃ c t, l = c :: t ∧ isAlnumAscii c = true) ∧
  (∃ t c, l = t ++ [c] ∧ isAlnumAscii c = true) ∧
  (∀ c ∈ l, isAlnumAscii c = true ∨ c = '-')

/-- Unix Path::is_absolute — the path has a root, i.e. begins with a slash. -/
def isAbsolutePath (s : String) : Bool :=
  match s.data with
  | '/' :: _ => true
  | _ => false

/-- PathBuf::join on Unix: an absolute argument replaces the base, otherwise
the argument is appended with a separator when one is needed. -/
def joinPath (base rest : String) : String :=
  if isAbsolutePath rest then rest
  else if base.data = [] then rest
  else if base.data.getLast? = some '/' then base ++ rest
  else base ++ "/" ++ rest

/-- The normal components of a path: slash-separated segments with empty
segments and lone-dot segments dropped. This renders Rust path component
parsing for the paths this program handles (leading dot components of
relative paths are not preserved; all paths fed to the containment and
parent logic are absolute). -/
def pathSegments (s : String) : List (List Char) :=
  (s.data.splitOn '/').filter (fun c => !(c == []) && !(c == ['.']))

/-- Rust path components, with the root rendered as a distinguished
first segment for absolute paths. -/
def rustComponents (s : String) : List (List Char) :=
  (if isAbsolutePath s then [['/']] else []) ++ pathSegments s

/-- Path::starts_with — component-wise prefix test: child starts with base. -/
def pathStartsWith (child base : String) : Bool :=
  leadsWith (rustComponents base) (rustComponents child)

/-- Render components back to a path string. -/
def renderPath (isAbs : Bool) (comps : List (List Char)) : String :=
  if isAbs then ⟨'/' :: List.intercalate ['/'] comps⟩ else ⟨List.intercalate ['/'] comps⟩

/-- Path::parent — the path without its final component; none for the root
or the empty path. -/
def rustParent (s : String) : Option String :=
  match pathSegments s with
  | [] =>
    if isAbsolutePath s then none
    else if s.data = [] then none
    else some ""
  | comps => some (renderPath (isAbsolutePath s) comps.dropLast)

/-- Path::file_name — the final component when it is a normal one; none
when the path is empty, a root, or terminates in a dot-dot component. -/
def rustFileName (s : String) : Option (List Char) :=
  match (pathSegments s).getLast? with
  | none => none
  | some c => if c == ['.', '.'] then none else some c

/-- The system directory roots denied by validate_destination_path. -/
def systemRoots : List String := ["/etc", "/usr", "/var", "/sys", "/proc", "/root", "/boot"]

/-- The textual starts_with test against the system roots. -/
def hasSystemRoot (s : String) : Bool :=
  systemRoots.any (fun p => leadsWith p.data s.data)

/-- The filesystem facts validate_destination_path consults, abstracted:
whether a path exists, its canonical (symlink-resolved) form when
canonicalization succeeds, and whether a path is an existing directory. -/
structure FileSystem where
  pathExists : String → Bool
  canonicalize : String → Option String
  isDir : String → Bool

/-- Failure kinds of validate_destination_path. -/
inductive PathError
  | pathTraversal
  | systemDirectoryDenied
  | outsideWorkingDirectory
  | parentCanonicalizeFailed
  | invalidFilename
deriving DecidableEq

instance {ε α : Type} [DecidableEq ε] [DecidableEq α] : DecidableEq (Except ε α) := fun a b =>
  match a, b with
  | .ok x, .ok y =>
    if h : x = y then .isTrue (by rw [h]) else .isFalse (by intro hh; cases hh; exact h rfl)
  | .ok _, .error _ => .isFalse (by intro h; cases h)
  | .error _, .ok _ => .isFalse (by intro h; cases h)
  | .error e, .error f =>
    if h : e = f then .isTrue (by rw [h]) else .isFalse (by intro hh; cases hh; exact h rfl)

/-- The containment phase of validate_destination_path: for a relative
input, the resolved path (or, when it cannot be canonicalized, its
existing parent) must canonicalize to a descendant of the working
directory. Absolute inputs skip the phase. -/
def containmentCheck (fs : FileSystem) (cwd : String) (destAbs : Bool) (resolved : String) :
    Except PathError Unit :=
  if destAbs then .ok ()
  else
    match fs.canonicalize resolved with
    | some canonical =>
      if pathStartsWith canonical cwd then .ok () else .error .outsideWorkingDirectory
    | none =>
      match rustParent resolved with
      | some parent =>
        if fs.pathExists parent then
          match fs.canonicalize parent with
          | some canonicalParent =>
            if pathStartsWith canonicalParent cwd then .ok ()
            else .error .outsideWorkingDirectory
          | none => .error .parentCanonicalizeFailed
        else .ok ()
      | none => .ok ()

/-- The resolved destination: a relative input is joined to the current
working directory, an absolute one is kept as is. -/
def resolvedPath (cwd destination : String) : String :=
  if isAbsolutePath destination then destination else joinPath cwd destination

/-- AssetDownloader::validate_destination_path, with the current directory
passed in (std::env::current_dir assumed to succeed) and the filesystem
abstracted. -/
def validateDestinationPath (fs : FileSystem) (cwd destination : String) :
    Except PathError String :=
  if containsDotDot destination.data then .error .pathTraversal
  else if isAbsolutePath destination && hasSystemRoot destination then
    .error .systemDirectoryDenied
  else
    match containmentCheck fs cwd (isAbsolutePath destination)
        (resolvedPath cwd destination) with
    | .error e => .error e
    | .ok _ =>
      match rustFileName destination with
      | some f =>
        if decide (nulChar ∈ f) || (rustTrim f).isEmpty then .error .invalidFilename
        else .ok (resolvedPath cwd destination)
      | none => .ok (resolvedPath cwd destination)

/-- A HEAD response as the extension resolver sees it: status code and the
three headers it reads, each absent or a header string. -/
structure HttpResponse where
  status : Nat
  location : Option String
  contentDisposition : Option String
  contentType : Option String

/-- Outcome of the HEAD probe: the reqwest client could not be built, the
request could not be sent, or a response arrived. -/
inductive HeadOutcome
  | clientBuildError
  | sendError
  | response (resp : HttpResponse)

/-- Errors get_extension_from_url itself can produce. -/
inductive HttpError
  | headClientError
  | headSendError
deriving DecidableEq

/-- StatusCode::is_redirection — 300..=399. -/
def isRedirection (s : Nat) : Bool := 300 ≤ s && s ≤ 399

/-- StatusCode::is_success — 200..=299. -/
def isSuccessStatus (s : Nat) : Bool := 200 ≤ s && s ≤ 299

/-- AssetDownloader::extract_extension_from_url: drop any query string
after the first question mark, take the segment after the last slash,
and return from its last dot on; none without a slash or without a dot. -/
def extractExtensionFromUrl (url : String) : Option String :=
  let urlPath := url.data.takeWhile (fun c => !(c == '?'))
  if urlPath.contains '/' then
    let filename := (urlPath.reverse.takeWhile (fun c => !(c == '/'))).reverse
    (extFromLastDot filename).map (fun l => (⟨l⟩ : String))
  else none

/-- AssetDownloader::extract_filename_from_disposition: after the first
"filename=", a quoted value takes the span up to the closing quote, an
unquoted value takes the token up to the next semicolon, trimmed; empty
results and a missing closing quote yield none. -/
def extractFilenameFromDisposition (d : String) : Option String :=
  match afterFirst "filename=".data d.data with
  | none => none
  | some part =>
    match part with
    | '\"' :: rest =>
      if rest.contains '\"' then some (⟨rest.takeWhile (fun c => !(c == '\"'))⟩ : String)
      else none
    | _ =>
      let f := rustTrim (part.takeWhile (fun c => !(c == ';')))
      if f.isEmpty then none else some (⟨f⟩ : String)

/-- AssetDownloader::get_extension_from_mime_type — the fixed lookup table. -/
def getExtensionFromMimeType (m : String) : String :=
  if m = "image/png" then ".png"
  else if m = "image/jpeg" then ".jpg"
  else if m = "image/jpg" then ".jpg"
  else if m = "image/gif" then ".gif"
  else if m = "image/webp" then ".webp"
  else if m = "image/bmp" then ".bmp"
  else if m = "image/tiff" then ".tiff"
  else if m = "image/svg+xml" then ".svg"
  else if m = "application/pdf" then ".pdf"
  else if m = "text/plain" then ".txt"
  else if m = "text/html" then ".html"
  else if m = "text/css" then ".css"
  else if m = "text/javascript" then ".js"
  else if m = "application/javascript" then ".js"
  else if m = "application/json" then ".json"
  else if m = "application/xml" then ".xml"
  else if m = "application/zip" then ".zip"
  else if m = "application/gzip" then ".gz"
  else if m = "application/x-tar" then ".tar"
  else if m = "video/mp4" then ".mp4"
  else if m = "video/mpeg" then ".mpg"
  else if m = "video/quicktime" then ".mov"
  else if m = "audio/mpeg" then ".mp3"
  else if m = "audio/wav" then ".wav"
  else if m = "audio/ogg" then ".ogg"
  else ".bin"

/-- mime_type.split(';').next().unwrap_or("").trim(). -/
def mimeMainType (ct : String) : String :=
  ⟨rustTrim (ct.data.takeWhile (fun c => !(c == ';')))⟩

/-- Rust filename.rfind('.') slicing, wrapped for Strings. -/
def extFromLastDotS (f : String) : Option String :=
  (extFromLastDot f.data).map (fun l => (⟨l⟩ : String))

/-- The returning part of the successful-status block of
get_extension_from_url: a Content-Disposition filename extension when one
exists, else the Content-Type mapping when the header exists, else ".bin". -/
def successBranch (resp : HttpResponse) : Except HttpError String :=
  let dispExt : Option String :=
    match resp.contentDisposition with
    | some d =>
      match extractFilenameFromDisposition d with
      | some f => extFromLastDotS f
      | none => none
    | none => none
  match dispExt with
  | some ext => .ok ext
  | none =>
    match resp.contentType with
    | some ct => .ok (getExtensionFromMimeType (mimeMainType ct))
    | none => .ok ".bin"

/-- AssetDownloader::get_extension_from_url with the network interaction
abstracted into a HeadOutcome: client-build and send failures are mapped
to errors and propagated; a response goes through the redirect Location
short-circuit, then the successful-status block, then the ".bin" default. -/
def getExtensionFromUrl (h : HeadOutcome) : Except HttpError String :=
  match h with
  | .clientBuildError => .error .headClientError
  | .sendError => .error .headSendError
  | .response resp =>
    let redirectExt : Option String :=
      if isRedirection resp.status then
        match resp.location with
        | some loc => extractExtensionFromUrl loc
        | none => none
      else none
    match redirectExt with
    | some ext => .ok ext
    | none =>
      if isSuccessStatus resp.status then successBranch resp
      else .ok ".bin"

/-- AssetDownloader::resolve_final_path: a directory destination is joined
with the asset id plus the inferred extension; any other destination is
returned unchanged. The HEAD outcome stands for the probe the extension
resolver performs. -/
def resolveFinalPath (fs : FileSystem) (head : HeadOutcome) (destination assetId : String) :
    Except HttpError String :=
  if fs.isDir destination then
    match getExtensionFromUrl head with
    | .ok ext => .ok (joinPath destination (assetId ++ ext))
    | .error e => .error e
  else .ok destination

/-- Modelled from the spec: the extension priority for a received HEAD
response — redirect Location first and immediately, else for a successful
status the Content-Disposition filename extension then the Content-Type
mapping, and ".bin" in every remaining case. -/
def headExtensionSpec (resp : HttpResponse) : String :=
  match (if isRedirection resp.status then resp.location.bind extractExtensionFromUrl
         else none) with
  | some ext => ext
  | none =>
    if isSuccessStatus resp.status then
      match resp.contentDisposition.bind
          (fun d => (extractFilenameFromDisposition d).bind extFromLastDotS) with
      | some ext => ext
      | none =>
        match resp.contentType with
        | some ct => getExtensionFromMimeType (mimeMainType ct)
        | none => ".bin"
    else ".bin"

/-- The MIME table as the spec lists it in section 4.4. -/
def mimeTable : List (String × String) :=
  [("image/png", ".png"), ("image/jpeg", ".jpg"), ("image/jpg", ".jpg"),
   ("image/gif", ".gif"), ("image/webp", ".webp"), ("image/bmp", ".bmp"),
   ("image/tiff", ".tiff"), ("image/svg+xml", ".svg"), ("application/pdf", ".pdf"),
   ("text/plain", ".txt"), ("text/html", ".html"), ("text/css", ".css"),
   ("text/javascript", ".js"), ("application/javascript", ".js"),
   ("application/json", ".json"), ("application/xml", ".xml"),
   ("application/zip", ".zip"), ("application/gzip", ".gz"),
   ("application/x-tar", ".tar"), ("video/mp4", ".mp4"), ("video/mpeg", ".mpg"),
   ("video/quicktime", ".mov"), ("audio/mpeg", ".mp3"), ("audio/wav", ".wav"),
   ("audio/ogg", ".ogg")]

/-- A filesystem on which nothing exists. -/
def fsAbsent : FileSystem :=
  { pathExists := fun _ => false, canonicalize := fun _ => none, isDir := fun _ => false }

/-- A filesystem on which every path exists and canonicalizes to itself. -/
def fsIdent : FileSystem :=
  { pathExists := fun _ => true, canonicalize := fun p => some p, isDir := fun _ => false }

/-- A filesystem on which every path exists and canonicalizes to a fixed
location outside the working directory. -/
def fsElsewhere : FileSystem :=
  { pathExists := fun _ => true, canonicalize := fun _ => some "/elsewhere",
    isDir := fun _ => false }

/-- A filesystem on which every path is an existing directory. -/
def fsAllDir : FileSystem :=
  { pathExists := fun _ => true, canonicalize := fun p => some p, isDir := fun _ => true }

lemma validate_ok_shape (fs : FileSystem) (cwd dest p : String)
    (h : validateDestinationPath fs cwd dest = .ok p) :
    p = resolvedPath cwd dest ∧
    containsDotDot dest.data = false ∧
    (isAbsolutePath dest = true → hasSystemRoot dest = false) := by
  unfold validateDestinationPath at h
  by_cases h1 : containsDotDot dest.data = true
  · rw [if_pos h1] at h; exact absurd h (by simp)
  · rw [if_neg h1] at h
    by_cases h2 : (isAbsolutePath dest && hasSystemRoot dest) = true
    · rw [if_pos h2] at h; exact absurd h (by simp)
    · rw [if_neg h2] at h
      refine ⟨?_, by simpa using h1, ?_⟩
      · rcases hcc : containmentCheck fs cwd (isAbsolutePath dest)
            (resolvedPath cwd dest) with e | u
        · simp only [hcc] at h; exact absurd h (by simp)
        · simp only [hcc] at h
          rcases hfn : rustFileName dest with _ | f
          · simp only [hfn] at h; exact (Except.ok.injEq _ _ ▸ h).symm
          · simp only [hfn] at h
            by_cases hbad : (decide (nulChar ∈ f) || (rustTrim f).isEmpty) = true
            · rw [if_pos hbad] at h; exact absurd h (by simp)
            · rw [if_neg hbad] at h; exact (Except.ok.injEq _ _ ▸ h).symm
      · intro ha
        cases hs : hasSystemRoot dest with
        | false => rfl
        | true => exact absurd (by simp [ha, hs]) h2

/-- The filename check of validate_destination_path in isolation: true when
the destination has no final normal component, or its final component has
no NUL and does not trim to empty. -/
def filenameOk (destination : String) : Bool :=
  match rustFileName destination with
  | some f => !(decide (nulChar ∈ f) || (rustTrim f).isEmpty)
  | none => true

lemma rustTrim_eq_nil (f : List Char) (h : ∀ c ∈ f, rustIsWhitespace c = true) :
    rustTrim f = [] := by
  unfold rustTrim
  have h1 : f.dropWhile rustIsWhitespace = [] := by
    rw [List.dropWhile_eq_nil_iff]
    exact h
  rw [h1]
  simp

lemma containment_error_kinds (fs : FileSystem) (cwd : String) (b : Bool) (r : String)
    (e : PathError) (h : containmentCheck fs cwd b r = .error e) :
    e = .outsideWorkingDirectory ∨ e = .parentCanonicalizeFailed := by
  cases b with
  | true => exact absurd h (by simp [containmentCheck])
  | false =>
    rw [containmentCheck] at h
    simp only [Bool.false_eq_true, if_false] at h
    rcases h1 : fs.canonicalize r with _ | c <;> simp only [h1] at h
    · rcases h2 : rustParent r with _ | par <;> simp only [h2] at h
      · exact absurd h (by simp)
      · by_cases h3 : fs.pathExists par = true
        · simp only [if_pos h3] at h
          rcases h4 : fs.canonicalize par with _ | cp <;> simp only [h4] at h
          · right; exact (Except.error.injEq _ _ ▸ h).symm
          · by_cases h5 : pathStartsWith cp cwd = true
            · rw [if_pos h5] at h; exact absurd h (by simp)
            · rw [if_neg h5] at h; left; exact (Except.error.injEq _ _ ▸ h).symm
        · rw [if_neg h3] at h; exact absurd h (by simp)
    · by_cases h5 : pathStartsWith c cwd = true
      · rw [if_pos h5] at h; exact absurd h (by simp)
      · rw [if_neg h5] at h; left; exact (Except.error.injEq _ _ ▸ h).symm

/-- C5: any destination string containing the two-character sequence ".."
is rejected with the path-traversal error, whatever the filesystem and the
working directory look like — so before any other destination check. -/
theorem pathTraversalRejectedFirst (fs : FileSystem) (cwd dest : String)
    (h : containsDotDot dest.data = true) :
    validateDestinationPath fs cwd dest = .error .pathTraversal := by
  simp [validateDestinationPath, h]

/-- C5 witness. -/
theorem pathTraversalRejectedFirst_witness :
    validateDestinationPath fsIdent "/work" "../test.png" = .error .pathTraversal :=
  pathTraversalRejectedFirst fsIdent "/work" "../test.png" (by decide)

/-- C6: an absolute destination without ".." that textually starts with one
of the system roots is rejected with the system-directory error. -/
theorem systemDirectoryRejected (fs : FileSystem) (cwd dest : String)
    (h1 : containsDotDot dest.data = false) (h2 : isAbsolutePath dest = true)
    (h3 : hasSystemRoot dest = true) :
    validateDestinationPath fs cwd dest = .error .systemDirectoryDenied := by
  simp [validateDestinationPath, h1, h2, h3]

/-- C6 witness. -/
theorem systemDirectoryRejected_witness :
    validateDestinationPath fsIdent "/work" "/etc/passwd" = .error .systemDirectoryDenied :=
  systemDirectoryRejected fsIdent "/work" "/etc/passwd" (by decide) (by decide) (by decide)

/-- C2: every destination validate_destination_path accepts is returned
either as the working directory joined with a traversal-free relative
path (the working-directory tree, as the validator resolves it), or as an
absolute path that does not start with any of the denied system roots
(the allowed non-system absolute locations). -/
theorem validatedDestinationLocation (fs : FileSystem) (cwd dest p : String)
    (h : validateDestinationPath fs cwd dest = .ok p) :
    (∃ r : String, isAbsolutePath r = false ∧ containsDotDot r.data = false ∧
      p = joinPath cwd r) ∨
    (isAbsolutePath p = true ∧ hasSystemRoot p = false) := by
  obtain ⟨hp, hdd, himp⟩ := validate_ok_shape fs cwd dest p h
  rw [resolvedPath] at hp
  by_cases ha : isAbsolutePath dest = true
  · right
    rw [if_pos ha] at hp
    exact ⟨hp ▸ ha, hp ▸ himp ha⟩
  · left
    exact ⟨dest, by simpa using ha, hdd, by rw [hp, if_neg ha]⟩

/-- C2 witness. -/
theorem validatedDestinationLocation_witness :
    (∃ r : String, isAbsolutePath r = false ∧ containsDotDot r.data = false ∧
      "/work/test.png" = joinPath "/work" r) ∨
    (isAbsolutePath "/work/test.png" = true ∧ hasSystemRoot "/work/test.png" = false) :=
  validatedDestinationLocation fsIdent "/work" "test.png" "/work/test.png" (by decide)

/-- C10: resolve_final_path joins a directory destination with the asset id
plus the inferred extension, and returns any non-directory destination
unchanged. -/
theorem finalPathResolution (fs : FileSystem) (head : HeadOutcome) (d a : String) :
    (fs.isDir d = true → ∀ ext, getExtensionFromUrl head = .ok ext →
      resolveFinalPath fs head d a = .ok (joinPath d (a ++ ext))) ∧
    (fs.isDir d = false → resolveFinalPath fs head d a = .ok d) := by
  constructor
  · intro hd ext hext; simp [resolveFinalPath, hd, hext]
  · intro hd; simp [resolveFinalPath, hd]

/-- C10 witness. -/
theorem finalPathResolution_witness :
    resolveFinalPath fsAllDir (.response ⟨200, none, none, none⟩) "/work/dir" "abc" =
      .ok (joinPath "/work/dir" ("abc" ++ ".bin")) ∧
    resolveFinalPath fsAbsent (.response ⟨200, none, none, none⟩) "/x" "abc" = .ok "/x" :=
  ⟨(finalPathResolution fsAllDir (.response ⟨200, none, none, none⟩) "/work/dir" "abc").1
      rfl ".bin" (by decide),
   (finalPathResolution fsAbsent (.response ⟨200, none, none, none⟩) "/x" "abc").2 rfl⟩

/-- C1 counterexample: when the HEAD request cannot be sent, extension
resolution does not degrade to ".bin" — get_extension_from_url returns the
send error itself. -/
theorem headProbeFailureCounterexample :
    getExtensionFromUrl HeadOutcome.sendError = Except.error HttpError.headSendError := rfl

/-- C1 amended: a failure to build the HTTP client or to send the HEAD
probe is returned as an error from get_extension_from_url, and
resolve_final_path propagates it for a directory destination, aborting the
download; the ".bin" default applies only to a received response that
yields no extension. -/
theorem headProbeFailureAborts (fs : FileSystem) (d a : String) (h : fs.isDir d = true) :
    resolveFinalPath fs HeadOutcome.clientBuildError d a = .error .headClientError ∧
    resolveFinalPath fs HeadOutcome.sendError d a = .error .headSendError := by
  constructor <;> simp [resolveFinalPath, h, getExtensionFromUrl]

/-- C1 witness. -/
theorem headProbeFailureAborts_witness :
    resolveFinalPath fsAllDir HeadOutcome.clientBuildError "/d" "a" =
      .error .headClientError ∧
    resolveFinalPath fsAllDir HeadOutcome.sendError "/d" "a" = .error .headSendError :=
  headProbeFailureAborts fsAllDir "/d" "a" rfl

/-- C4 amended: for a relative, traversal-free destination, when the
resolved path canonicalizes the validator fails with
OutsideWorkingDirectory exactly when the canonical form is not a
descendant of the working directory; when it does not canonicalize but its
parent exists and canonicalizes, the same check is applied to the parent;
and when the parent does not exist either, the containment check is
skipped and validation succeeds provided the filename check passes. -/
theorem containmentChecks (fs : FileSystem) (cwd dest : String)
    (hdd : containsDotDot dest.data = false)
    (hrel : isAbsolutePath dest = false) :
    (∀ c, fs.canonicalize (resolvedPath cwd dest) = some c →
      (validateDestinationPath fs cwd dest = .error .outsideWorkingDirectory ↔
        pathStartsWith c cwd = false)) ∧
    (∀ par cp, fs.canonicalize (resolvedPath cwd dest) = none →
      rustParent (resolvedPath cwd dest) = some par → fs.pathExists par = true →
      fs.canonicalize par = some cp →
      (validateDestinationPath fs cwd dest = .error .outsideWorkingDirectory ↔
        pathStartsWith cp cwd = false)) ∧
    (∀ par, fs.canonicalize (resolvedPath cwd dest) = none →
      rustParent (resolvedPath cwd dest) = some par → fs.pathExists par = false →
      filenameOk dest = true →
      validateDestinationPath fs cwd dest = .ok (resolvedPath cwd dest)) := by
  refine ⟨?_, ?_, ?_⟩
  · intro c hc
    cases hsw : pathStartsWith c cwd with
    | false =>
      simp [validateDestinationPath, hdd, hrel, containmentCheck, hc, hsw]
    | true =>
      simp only [validateDestinationPath, hdd, hrel, containmentCheck, hc, hsw]
      simp only [Bool.false_eq_true, if_false, if_true]
      rcases hfn : rustFileName dest with _ | f <;> simp [hfn]
      split <;> simp
  · intro par cp hc hpar hex hcp
    cases hsw : pathStartsWith cp cwd with
    | false =>
      simp [validateDestinationPath, hdd, hrel, containmentCheck, hc, hpar, hex, hcp, hsw]
    | true =>
      simp only [validateDestinationPath, hdd, hrel, containmentCheck, hc, hpar, hex, hcp,
        hsw]
      simp only [Bool.false_eq_true, if_false, if_true]
      rcases hfn : rustFileName dest with _ | f <;> simp [hfn]
      split <;> simp
  · intro par hc hpar hex hok
    simp only [filenameOk] at hok
    simp only [validateDestinationPath, hdd, hrel, containmentCheck, hc, hpar, hex]
    simp only [Bool.false_eq_true, if_false]
    rcases hfn : rustFileName dest with _ | f
    · simp [hfn]
    · rw [hfn] at hok
      simp only [Bool.not_eq_true'] at hok
      simp [hfn, hok]

/-- C4 counterexample: on a filesystem where nothing exists, the resolved
path of the destination "sub/ " cannot be canonicalized and its parent
does not exist, so by the claim it should be accepted — yet validation
rejects it with the invalid-filename error. -/
theorem containmentCounterexample :
    fsAbsent.canonicalize (resolvedPath "/work" "sub/ ") = none ∧
    rustParent (resolvedPath "/work" "sub/ ") = some "/work/sub" ∧
    fsAbsent.pathExists "/work/sub" = false ∧
    validateDestinationPath fsAbsent "/work" "sub/ " = .error .invalidFilename :=
  ⟨rfl, by decide, rfl, by decide⟩

/-- C4 witness. -/
theorem containmentChecks_witness :
    validateDestinationPath fsElsewhere "/work" "file.txt" =
      .error .outsideWorkingDirectory :=
  ((containmentChecks fsElsewhere "/work" "file.txt" (by decide) (by decide)).1
    "/elsewhere" rfl).mpr (by decide)

/-- C8: a destination that survives the traversal, system-directory and
containment checks but whose final path component is all whitespace (in
particular empty) or contains a NUL byte is rejected with the
invalid-filename error. -/
theorem invalidFilenameRejected (fs : FileSystem) (cwd dest : String)
    (h1 : containsDotDot dest.data = false)
    (h2 : (isAbsolutePath dest && hasSystemRoot dest) = false)
    (h3 : validateDestinationPath fs cwd dest ≠ .error .outsideWorkingDirectory)
    (h4 : validateDestinationPath fs cwd dest ≠ .error .parentCanonicalizeFailed)
    (f : List Char) (hf : rustFileName dest = some f)
    (hbad : (∀ c ∈ f, rustIsWhitespace c = true) ∨ nulChar ∈ f) :
    validateDestinationPath fs cwd dest = .error .invalidFilename := by
  have hcond : (decide (nulChar ∈ f) || (rustTrim f).isEmpty) = true := by
    rcases hbad with hws | hnul
    · have ht : rustTrim f = [] := rustTrim_eq_nil f hws
      simp [ht]
    · simp [hnul]
  rcases hcc : containmentCheck fs cwd (isAbsolutePath dest) (resolvedPath cwd dest)
      with e | u
  · have hkind := containment_error_kinds _ _ _ _ _ hcc
    have hval : validateDestinationPath fs cwd dest = .error e := by
      simp [validateDestinationPath, h1, h2, hcc]
    rcases hkind with rfl | rfl
    · exact absurd hval h3
    · exact absurd hval h4
  · simp [validateDestinationPath, h1, h2, hcc, hf, hcond]

/-- C8 witness. -/
theorem invalidFilenameRejected_witness :
    validateDestinationPath fsAbsent "/work" "a\x00b" = .error .invalidFilename :=
  invalidFilenameRejected fsAbsent "/work" "a\x00b" (by decide) (by decide)
    (by decide) (by decide) "a\x00b".data (by decide) (Or.inr (by decide))

/-- C7: for every received HEAD response, get_extension_from_url succeeds
and returns exactly the spec priority: a redirect Location extension first
and immediately, else — for a successful status — the Content-Disposition
filename extension then the Content-Type mapping, and ".bin" in every
remaining case. -/
theorem headExtensionPriority (resp : HttpResponse) :
    getExtensionFromUrl (.response resp) = .ok (headExtensionSpec resp) := by
  have dispExt_eq : ∀ d : String,
      (match extractFilenameFromDisposition d with
       | some f => extFromLastDotS f
       | none => none) = (extractFilenameFromDisposition d).bind extFromLastDotS := by
    intro d; cases extractFilenameFromDisposition d <;> rfl
  unfold getExtensionFromUrl headExtensionSpec successBranch
  cases hl : resp.location <;> cases hd : resp.contentDisposition <;>
    cases hct : resp.contentType <;>
    simp only [dispExt_eq, Option.bind_none, Option.bind_some, Option.some_bind,
      Option.none_bind] <;>
    (repeat' split) <;> simp_all

/-- C9: the MIME lookup is total — each listed key maps to its listed
extension and every other string maps to ".bin". -/
theorem mimeMappingTotal :
    (∀ p ∈ mimeTable, getExtensionFromMimeType p.1 = p.2) ∧
    ∀ m : String, m ∉ mimeTable.map Prod.fst → getExtensionFromMimeType m = ".bin" := by
  constructor
  · decide
  · intro m hm
    simp only [mimeTable, List.map_cons, List.map_nil, List.mem_cons, List.not_mem_nil,
      or_false, not_or] at hm
    obtain ⟨h1, h2, h3, h4, h5, h6, h7, h8, h9, h10, h11, h12, h13, h14, h15, h16, h17,
      h18, h19, h20, h21, h22, h23, h24, h25⟩ := hm
    simp [getExtensionFromMimeType, h1, h2, h3, h4, h5, h6, h7, h8, h9, h10, h11, h12,
      h13, h14, h15, h16, h17, h18, h19, h20, h21, h22, h23, h24, h25]

/-- C9 witness. -/
theorem mimeMappingTotal_witness :
    getExtensionFromMimeType "image/png" = ".png" ∧
    getExtensionFromMimeType "application/unknown" = ".bin" :=
  ⟨mimeMappingTotal.1 ("image/png", ".png") (by decide),
   mimeMappingTotal.2 "application/unknown" (by decide)⟩

lemma hexRun_eq_some : ∀ (n : Nat) (l r : List Char),
    hexRun n l = some r ↔
      ∃ g, l = g ++ r ∧ g.length = n ∧ ∀ c ∈ g, isHexDigit c = true := by
  intro n
  induction n with
  | zero =>
    intro l r
    simp only [hexRun, Option.some.injEq]
    constructor
    · rintro rfl
      exact ⟨[], by simp, rfl, by simp⟩
    · rintro ⟨g, rfl, hlen, -⟩
      have hg : g = [] := List.length_eq_zero.mp hlen
      subst hg
      simp
  | succ n ih =>
    intro l r
    cases l with
    | nil =>
      simp only [hexRun]
      constructor
      · intro h; cases h
      · rintro ⟨g, hg, hlen, -⟩
        cases g with
        | nil => simp at hlen
        | cons a b => simp at hg
    | cons c t =>
      simp only [hexRun]
      by_cases hc : isHexDigit c = true
      · rw [if_pos hc, ih]
        constructor
        · rintro ⟨g, rfl, rfl, hall⟩
          refine ⟨c :: g, rfl, by simp, ?_⟩
          intro x hx
          rcases List.mem_cons.mp hx with rfl | hx2
          · exact hc
          · exact hall x hx2
        · rintro ⟨g, hg, hlen, hall⟩
          cases g with
          | nil => simp at hlen
          | cons a g2 =>
            rw [List.cons_append] at hg
            injection hg with h1 h2
            refine ⟨g2, h2, by simpa using hlen, ?_⟩
            intro x hx
            exact hall x (List.mem_cons_of_mem _ hx)
      · rw [if_neg hc]
        constructor
        · intro h; cases h
        · rintro ⟨g, hg, hlen, hall⟩
          cases g with
          | nil => simp at hlen
          | cons a g2 =>
            rw [List.cons_append] at hg
            injection hg with h1 h2
            exact absurd (by rw [h1]; exact hall a (by simp)) hc

lemma expectDash_eq_some (l r : List Char) : expectDash l = some r ↔ l = '-' :: r := by
  cases l with
  | nil => simp [expectDash]
  | cons c t =>
    simp only [expectDash]
    by_cases hc : c = '-'
    · subst hc; simp
    · rw [if_neg hc]; simp [hc]

lemma uuidMatch_iff (l : List Char) : uuidMatch l = true ↔ UuidShape l := by
  rw [uuidMatch, beq_iff_eq]
  unfold uuidChain UuidShape
  simp only [Option.bind_eq_some, hexRun_eq_some, expectDash_eq_some]
  constructor
  · rintro ⟨a8, ⟨a7, ⟨a6, ⟨a5, ⟨a4, ⟨a3, ⟨a2, ⟨a1, ⟨g1, rfl, hl1, hh1⟩, rfl⟩,
      ⟨g2, rfl, hl2, hh2⟩⟩, rfl⟩, ⟨g3, rfl, hl3, hh3⟩⟩, rfl⟩, ⟨g4, rfl, hl4, hh4⟩⟩, rfl⟩,
      ⟨g5, hg5, hl5, hh5⟩⟩
    rw [List.append_nil] at hg5
    exact ⟨g1, g2, g3, g4, g5, by rw [hg5], hl1, hl2, hl3, hl4, hl5, hh1, hh2, hh3, hh4,
      hh5⟩
  · rintro ⟨g1, g2, g3, g4, g5, rfl, hl1, hl2, hl3, hl4, hl5, hh1, hh2, hh3, hh4, hh5⟩
    exact ⟨g5,
      ⟨'-' :: g5,
        ⟨g4 ++ '-' :: g5,
          ⟨'-' :: (g4 ++ '-' :: g5),
            ⟨g3 ++ '-' :: (g4 ++ '-' :: g5),
              ⟨'-' :: (g3 ++ '-' :: (g4 ++ '-' :: g5)),
                ⟨g2 ++ '-' :: (g3 ++ '-' :: (g4 ++ '-' :: g5)),
                  ⟨'-' :: (g2 ++ '-' :: (g3 ++ '-' :: (g4 ++ '-' :: g5))),
                    ⟨g1, rfl, hl1, hh1⟩, rfl⟩,
                  ⟨g2, rfl, hl2, hh2⟩⟩,
                rfl⟩,
              ⟨g3, rfl, hl3, hh3⟩⟩,
            rfl⟩,
          ⟨g4, rfl, hl4, hh4⟩⟩,
        rfl⟩,
      ⟨g5, by simp, hl5, hh5⟩⟩

lemma looseBody_iff : ∀ t : List Char, looseBody t = true ↔
    ∃ m c, t = m ++ [c] ∧ (∀ x ∈ m, isAlnumAscii x = true ∨ x = '-') ∧
      isAlnumAscii c = true := by
  intro t
  induction t with
  | nil => simp [looseBody]
  | cons a t ih =>
    cases t with
    | nil =>
      simp only [looseBody]
      constructor
      · intro h; exact ⟨[], a, rfl, by simp, h⟩
      · rintro ⟨m, c, hmc, hm, hc⟩
        cases m with
        | nil =>
          simp only [List.nil_append, List.cons.injEq] at hmc
          rw [hmc.1]; exact hc
        | cons b m2 => simp at hmc
    | cons b t2 =>
      simp only [looseBody, Bool.and_eq_true, Bool.or_eq_true, beq_iff_eq]
      rw [ih]
      constructor
      · rintro ⟨ha, m, c, heq, hm, hc⟩
        refine ⟨a :: m, c, by simp [heq], ?_, hc⟩
        intro x hx
        rcases List.mem_cons.mp hx with rfl | hx2
        · exact ha
        · exact hm x hx2
      · rintro ⟨m, c, heq, hm, hc⟩
        cases m with
        | nil => simp at heq
        | cons a2 m2 =>
          rw [List.cons_append] at heq
          injection heq with h1 h2
          subst h1
          refine ⟨hm a (by simp), m2, c, h2, ?_, hc⟩
          intro x hx
          exact hm x (List.mem_cons_of_mem _ hx)

lemma looseMatch_iff (l : List Char) : looseMatch l = true ↔ LooseShape l := by
  unfold looseMatch LooseShape
  cases l with
  | nil => simp
  | cons a t =>
    simp only [Bool.and_eq_true, decide_eq_true_eq]
    constructor
    · rintro ⟨⟨h20, h50⟩, ha, hb⟩
      obtain ⟨m, c, rfl, hm, hc⟩ := (looseBody_iff t).mp hb
      refine ⟨h20, h50, ⟨a, _, rfl, ha⟩, ⟨a :: m, c, by simp, hc⟩, ?_⟩
      intro x hx
      rcases List.mem_cons.mp hx with rfl | hx2
      · exact Or.inl ha
      · rcases List.mem_append.mp hx2 with hx3 | hx4
        · exact hm x hx3
        · have hx5 := List.mem_singleton.mp hx4
          subst hx5
          exact Or.inl hc
    · rintro ⟨h20, h50, ⟨c0, t0, he1, hc0⟩, ⟨t1, c1, he2, hc1⟩, hall⟩
      injection he1 with hA hT
      refine ⟨⟨h20, h50⟩, by rw [hA]; exact hc0, ?_⟩
      cases t1 with
      | nil =>
        simp only [List.nil_append, List.cons.injEq] at he2
        obtain ⟨-, ht⟩ := he2
        subst ht
        exact absurd h20 (by simp)
      | cons a1 m1 =>
        rw [List.cons_append] at he2
        injection he2 with hA1 hT1
        rw [looseBody_iff]
        refine ⟨m1, c1, hT1, ?_, hc1⟩
        intro x hx
        refine hall x (List.mem_cons_of_mem _ ?_)
        rw [hT1]
        exact List.mem_append_left _ hx

/-- C3: is_valid_asset_id accepts a string exactly when its byte length is
between 20 and 50, it contains at least one hyphen, and it matches the
strict UUID shape or the looser shape with at least two hyphens; on
acceptance build_asset_url returns the fixed template prefix followed by
the identifier, on rejection it fails with the invalid-asset-id error. -/
theorem assetIdValidation (l : List Char) :
    (isValidAssetId l = true ↔
      (20 ≤ utf8Length l ∧ utf8Length l ≤ 50 ∧ '-' ∈ l ∧
        (UuidShape l ∨ (LooseShape l ∧ 2 ≤ l.count '-')))) ∧
    (isValidAssetId l = true → buildAssetUrl l = .ok (assetUrlBase ++ l)) ∧
    (isValidAssetId l = false → buildAssetUrl l = .error .invalidAssetId) := by
  refine ⟨⟨?_, ?_⟩, ?_, ?_⟩
  · intro h
    unfold isValidAssetId at h
    by_cases h1 : (decide (utf8Length l < 20) || decide (50 < utf8Length l)) = true
    · rw [if_pos h1] at h; exact absurd h (by simp)
    · rw [if_neg h1] at h
      simp only [Bool.or_eq_true, decide_eq_true_eq, not_or] at h1
      have hlen : 20 ≤ utf8Length l ∧ utf8Length l ≤ 50 := by omega
      by_cases h2 : (!(decide ('-' ∈ l))) = true
      · rw [if_pos h2] at h; exact absurd h (by simp)
      · rw [if_neg h2] at h
        have hmem : '-' ∈ l := by simpa using h2
        by_cases h3 : uuidMatch l = true
        · exact ⟨hlen.1, hlen.2, hmem, Or.inl ((uuidMatch_iff l).mp h3)⟩
        · rw [if_neg h3] at h
          simp only [Bool.and_eq_true, decide_eq_true_eq] at h
          exact ⟨hlen.1, hlen.2, hmem, Or.inr ⟨(looseMatch_iff l).mp h.1, h.2⟩⟩
  · rintro ⟨h20, h50, hmem, hshape⟩
    unfold isValidAssetId
    rw [if_neg (by simp only [Bool.or_eq_true, decide_eq_true_eq, not_or]; omega)]
    rw [if_neg (by simp [hmem])]
    rcases hshape with hu | ⟨hl, hc⟩
    · rw [if_pos ((uuidMatch_iff l).mpr hu)]
    · by_cases h3 : uuidMatch l = true
      · rw [if_pos h3]
      · rw [if_neg h3]
        simp only [Bool.and_eq_true, decide_eq_true_eq]
        exact ⟨(looseMatch_iff l).mpr hl, hc⟩
  · intro h; simp [buildAssetUrl, h]
  · intro h; simp [buildAssetUrl, h]

/-- C3 witness. -/
theorem assetIdValidation_witness :
    isValidAssetId "1234abcd-1234-1234-1234-1234abcd1234".data = true ∧
    buildAssetUrl "1234abcd-1234-1234-1234-1234abcd1234".data =
      .ok (assetUrlBase ++ "1234abcd-1234-1234-1234-1234abcd1234".data) ∧
    isValidAssetId "invalid@id".data = false ∧
    buildAssetUrl "invalid@id".data = .error .invalidAssetId :=
  ⟨by decide,
   (assetIdValidation "1234abcd-1234-1234-1234-1234abcd1234".data).2.1 (by decide),
   by decide,
   (assetIdValidation "invalid@id".data).2.2 (by decide)⟩

end GhAsset
